import Mathlib

set_option autoImplicit false

/-!
Shallow embedding of the Selective Repeat ARQ core of `src/sr.c`
(the Selective Repeat variant: `ComputeChecksum`, `IsCorrupted`,
`A_output`, `A_input`, `A_timerinterrupt`, `A_init`, `B_input`, `B_init`)
together with proofs settling the specification claims.

Machine integers of the C source are modelled as `Int`; all the
arithmetic performed by the protocol stays far below any overflow
boundary (sequence numbers in `[0, 7)`, checksums are small sums), so
unbounded `Int` is a faithful model.  The C `while` loops are bounded in
the source (each iteration clears a boolean slot out of at most six), so
they are modelled with an explicit fuel of 7, which is proved sufficient.
-/

namespace SR

/-- WINDOWSIZE from sr.c. -/
def WINDOWSIZE : Int := 6

/-- SEQSPACE from sr.c. -/
def SEQSPACE : Int := 7

/-- NOTINUSE from sr.c, the sentinel for an unused acknum field. -/
def NOTINUSE : Int := -1

/-- MAX_RETRIES from sr.c. -/
def MAX_RETRIES : Nat := 10

/-- A packet (`struct pkt`): seqnum, acknum, checksum and a 20-byte payload. -/
structure Pkt where
  seqnum : Int
  acknum : Int
  checksum : Int
  payload : Fin 20 → Int
deriving DecidableEq

instance : Inhabited Pkt := ⟨⟨0, 0, 0, fun _ => 0⟩⟩

/-- A message (`struct msg`): a 20-byte application payload. -/
def MsgT : Type := Fin 20 → Int

/-- Sum of the 20 payload bytes, as in the `for` loop of `ComputeChecksum`. -/
def payloadSum (p : Fin 20 → Int) : Int := ∑ i : Fin 20, p i

/-- `ComputeChecksum` from sr.c: seqnum + acknum + the payload byte sum.
The stored checksum field is not part of the sum. -/
def ComputeChecksum (packet : Pkt) : Int :=
  packet.seqnum + packet.acknum + payloadSum packet.payload

/-- `IsCorrupted` from sr.c: true iff the stored checksum differs from the
recomputed one. -/
def IsCorrupted (packet : Pkt) : Bool :=
  !(packet.checksum == ComputeChecksum packet)

/-- Map a sequence number to its sender/receiver buffer slot, the C
expression `seqnum % WINDOWSIZE` (all sequence numbers used by the
protocol are nonnegative). -/
def bufIdx6 (x : Int) : Fin 6 :=
  ⟨(x % 6).toNat % 6, Nat.mod_lt _ (by norm_num)⟩

/-- Map a sequence number to its `resend_count` slot, the C expression used
to index `resend_count[SEQSPACE]`. -/
def idx7 (x : Int) : Fin 7 :=
  ⟨(x % 7).toNat % 7, Nat.mod_lt _ (by norm_num)⟩

/-- Sender (A) state of the Selective Repeat implementation: `base`,
`next_seqnum`, `sender_buffer`, `acked`, `resend_count`, plus the timer
status and the observability counters touched by the sender code. -/
structure AState where
  base : Int
  next_seqnum : Int
  sender_buffer : Fin 6 → Pkt
  acked : Fin 6 → Bool
  resend_count : Fin 7 → Nat
  timer : Bool
  window_full : Nat
  packets_resent : Nat
deriving DecidableEq

/-- `A_init` from sr.c (resend_count is a zero-initialised C static array;
the timer is not running before any packet is sent). -/
def A_init : AState where
  base := 0
  next_seqnum := 0
  sender_buffer := fun _ => default
  acked := fun _ => false
  resend_count := fun _ => 0
  timer := false
  window_full := 0
  packets_resent := 0

/-- The data packet built by `A_output`: seqnum = next_seqnum,
acknum = NOTINUSE, payload copied from the message, checksum computed. -/
def mkDataPkt (seq : Int) (m : MsgT) : Pkt :=
  let q : Pkt := { seqnum := seq, acknum := NOTINUSE, checksum := 0, payload := m }
  { q with checksum := ComputeChecksum q }

/-- `A_output` from sr.c.  Returns the new sender state and the list of
packets handed to `tolayer3`. -/
def A_output (s : AState) (message : MsgT) : AState × List Pkt :=
  if (s.next_seqnum - s.base + SEQSPACE) % SEQSPACE < WINDOWSIZE then
    let sendpkt := mkDataPkt s.next_seqnum message
    let i := bufIdx6 s.next_seqnum
    ({ s with
        sender_buffer := Function.update s.sender_buffer i sendpkt
        acked := Function.update s.acked i false
        timer := if s.base = s.next_seqnum then true else s.timer
        next_seqnum := (s.next_seqnum + 1) % SEQSPACE },
     [sendpkt])
  else
    ({ s with window_full := s.window_full + 1 }, [])

/-- One iteration of the window-slide `while` loop in `A_input`: clear the
acked mark at `base`, advance `base`, then either restart or stop the timer
according to the test `(base - next_seqnum + SEQSPACE) % SEQSPACE <
WINDOWSIZE` written in the source (a `stoptimer` followed by `starttimer`
leaves the timer running; a bare `stoptimer` leaves it stopped). -/
def slideStep (s : AState) : AState :=
  let s1 := { s with
    acked := Function.update s.acked (bufIdx6 s.base) false
    base := (s.base + 1) % SEQSPACE }
  { s1 with
    timer := decide ((s1.base - s1.next_seqnum + SEQSPACE) % SEQSPACE < WINDOWSIZE) }

/-- The `while (acked[base % WINDOWSIZE])` loop of `A_input`, with fuel.
Each iteration clears one of the six acked slots and the loop never sets a
slot, so fuel 7 is enough to reach the loop exit (proved below). -/
def slide : Nat → AState → AState
  | 0, s => s
  | fuel + 1, s =>
    if s.acked (bufIdx6 s.base) then slide fuel (slideStep s) else s

/-- `A_input` from sr.c: ignore corrupted acks; for an acknum inside the
window, mark it acked and reset its retry counter when new, then run the
slide loop; acks outside the window are ignored. -/
def A_input (s : AState) (packet : Pkt) : AState :=
  if IsCorrupted packet then s
  else
    let a := packet.acknum
    if (a - s.base + SEQSPACE) % SEQSPACE < WINDOWSIZE then
      let i := bufIdx6 a
      let s1 :=
        if s.acked i then s
        else { s with
                acked := Function.update s.acked i true
                resend_count := Function.update s.resend_count (idx7 a) 0 }
      slide 7 s1
    else s

/-- Outcome of `A_timerinterrupt`: either the fatal `exit(1)` on retry
exhaustion, or a new state together with the packets retransmitted. -/
inductive TOut where
  | fatal : TOut
  | ok : AState → List Pkt → TOut
deriving DecidableEq

/-- `A_timerinterrupt` from sr.c: if `resend_count[base]` has reached
MAX_RETRIES the process exits (fatal); otherwise the single packet at
`base` is retransmitted, its retry counter incremented and the timer
restarted. -/
def A_timerinterrupt (s : AState) : TOut :=
  if MAX_RETRIES ≤ s.resend_count (idx7 s.base) then TOut.fatal
  else
    TOut.ok
      { s with
          resend_count := Function.update s.resend_count (idx7 s.base)
            (s.resend_count (idx7 s.base) + 1)
          timer := true
          packets_resent := s.packets_resent + 1 }
      [s.sender_buffer (bufIdx6 s.base)]

/-- Receiver (B) state of the Selective Repeat implementation:
`expected_seqnum`, `receiver_buffer`, `received`, and `B_nextseqnum`
(the mod-2 counter used to number outgoing ack packets), plus the
`packets_received` counter. -/
structure RState where
  expected_seqnum : Int
  receiver_buffer : Fin 6 → Pkt
  received : Fin 6 → Bool
  B_nextseqnum : Int
  packets_received : Nat
deriving DecidableEq

/-- `B_init` from sr.c (`B_nextseqnum` is initialised to 1 at its
declaration). -/
def B_init : RState where
  expected_seqnum := 0
  receiver_buffer := fun _ => default
  received := fun _ => false
  B_nextseqnum := 1
  packets_received := 0

/-- The ack packet built by `B_input`: seqnum = B_nextseqnum, acknum = the
received data packet's seqnum, payload filled with the character '0' (48),
checksum computed. -/
def mkBAck (bseq : Int) (a : Int) : Pkt :=
  let q : Pkt := { seqnum := bseq, acknum := a, checksum := 0, payload := fun _ => 48 }
  { q with checksum := ComputeChecksum q }

/-- One delivery step plus loop of `B_input`'s
`while (received[expected_seqnum % WINDOWSIZE])`, with fuel: deliver the
buffered payload at `expected_seqnum`, clear its mark, advance
`expected_seqnum`.  Delivered payloads are appended in `tolayer5` order.
Each iteration clears one of the six marks and the loop never sets one, so
fuel 7 always reaches the loop exit. -/
def deliverLoop : Nat → RState → List (Fin 20 → Int) → RState × List (Fin 20 → Int)
  | 0, s, acc => (s, acc)
  | fuel + 1, s, acc =>
    if s.received (bufIdx6 s.expected_seqnum) then
      deliverLoop fuel
        { s with
            received := Function.update s.received (bufIdx6 s.expected_seqnum) false
            expected_seqnum := (s.expected_seqnum + 1) % SEQSPACE }
        (acc ++ [(s.receiver_buffer (bufIdx6 s.expected_seqnum)).payload])
    else (s, acc)

/-- `B_input` from sr.c.  Returns the new receiver state, the payloads
delivered to layer 5 (in order), and the ack packets handed to `tolayer3`.
Corrupted packets are ignored; in-window packets are always acked, stored
and counted when new, and the in-order delivery loop then runs;
out-of-window packets are ignored with no ack. -/
def B_input (s : RState) (packet : Pkt) : RState × List (Fin 20 → Int) × List Pkt :=
  if IsCorrupted packet then (s, [], [])
  else
    let seq := packet.seqnum
    if (seq - s.expected_seqnum + SEQSPACE) % SEQSPACE < WINDOWSIZE then
      let ackpkt := mkBAck s.B_nextseqnum seq
      let i := bufIdx6 seq
      let s1 := { s with B_nextseqnum := (s.B_nextseqnum + 1) % 2 }
      let s2 :=
        if s1.received i then s1
        else { s1 with
                receiver_buffer := Function.update s1.receiver_buffer i packet
                received := Function.update s1.received i true
                packets_received := s1.packets_received + 1 }
      let r := deliverLoop 7 s2 []
      (r.1, r.2, [ackpkt])
    else (s, [], [])

/-! ### Auxiliary definitions used by the claims -/

/-- An uncorrupted acknowledgment frame carrying acknum `a`, shaped like the
acks `B_input` sends (payload of '0' bytes, checksum computed). -/
def mkAckPkt (a : Int) : Pkt :=
  let q : Pkt := { seqnum := 0, acknum := a, checksum := 0, payload := fun _ => 48 }
  { q with checksum := ComputeChecksum q }

/-- A fixed concrete application message used in concrete scenarios. -/
def cmsg : MsgT := fun _ => 7

/-- The data frame the sender builds for the k-th submitted message when
fewer than SEQSPACE messages are submitted: seqnum = k, payload = pay k. -/
def mkFrame (pay : Nat → Fin 20 → Int) (k : Nat) : Pkt :=
  mkDataPkt (k : Int) (pay k)

/-- Run the receiver over a list of arrival indices (frame k arrives as
`mkFrame pay k`), accumulating the payloads delivered to layer 5. -/
def runArr (pay : Nat → Fin 20 → Int) :
    RState → List Nat → List (Fin 20 → Int) → RState × List (Fin 20 → Int)
  | s, [], dl => (s, dl)
  | s, a :: rest, dl =>
    runArr pay (B_input s (mkFrame pay a)).1 rest (dl ++ (B_input s (mkFrame pay a)).2.1)

/-- Check that every arrival in the list is inside the receive window at
the moment it arrives. -/
def allInWin (pay : Nat → Fin 20 → Int) : RState → List Nat → Bool
  | _, [] => true
  | s, a :: rest =>
    (decide (((mkFrame pay a).seqnum - s.expected_seqnum + SEQSPACE) % SEQSPACE < WINDOWSIZE)) &&
      allInWin pay (B_input s (mkFrame pay a)).1 rest

/-- Run the receiver over a list of raw packets, keeping only the state. -/
def runBpkts : RState → List Pkt → RState
  | s, [] => s
  | s, p :: rest => runBpkts (B_input s p).1 rest

/-- Payload family for concrete receiver scenarios: message k is 20 copies
of the byte k. -/
def pay7 : Nat → Fin 20 → Int := fun k _ => (k : Int)

/-- Arrival order refuting claim C1: frames 0..5 followed by a second
(retransmitted) copy of frame 0 — every arrival is inside the receive
window at its arrival time. -/
def cexArr : List Nat := [0, 1, 2, 3, 4, 5, 0]

/-! Ghost in-flight tracking for the sender: alongside the code state we
carry the specification's set of in-flight sequence numbers — a number
joins the set when `A_output` accepts a submission and leaves it when the
slide loop of `A_input` moves `base` past it.  The first component always
evolves exactly as the code (proved below). -/

/-- Ghost version of the slide loop: each iteration also removes the
sequence number at `base` from the in-flight set. -/
def gslide : Nat → AState × Finset Int → AState × Finset Int
  | 0, g => g
  | fuel + 1, g =>
    if g.1.acked (bufIdx6 g.1.base) then
      gslide fuel (slideStep g.1, g.2.erase g.1.base)
    else g

/-- Ghost version of `A_output`: an accepted submission adds the assigned
sequence number to the in-flight set. -/
def gA_output (g : AState × Finset Int) (m : MsgT) : AState × Finset Int :=
  ((A_output g.1 m).1,
    if (g.1.next_seqnum - g.1.base + SEQSPACE) % SEQSPACE < WINDOWSIZE then
      insert g.1.next_seqnum g.2
    else g.2)

/-- Ghost version of `A_input`: identical to the code, with the ghost
slide loop. -/
def gA_input (g : AState × Finset Int) (packet : Pkt) : AState × Finset Int :=
  if IsCorrupted packet then g
  else
    let a := packet.acknum
    if (a - g.1.base + SEQSPACE) % SEQSPACE < WINDOWSIZE then
      let s := g.1
      let i := bufIdx6 a
      let s1 :=
        if s.acked i then s
        else { s with
                acked := Function.update s.acked i true
                resend_count := Function.update s.resend_count (idx7 a) 0 }
      gslide 7 (s1, g.2)
    else g

/-- Sender states (with ghost in-flight set) reachable from `A_init` under
any sequence of submit, on_ack and (non-fatal) on_timeout events. -/
inductive ReachG : AState × Finset Int → Prop where
  | init : ReachG (A_init, ∅)
  | subm {g : AState × Finset Int} (m : MsgT) : ReachG g → ReachG (gA_output g m)
  | ack {g : AState × Finset Int} (p : Pkt) : ReachG g → ReachG (gA_input g p)
  | tmo {g : AState × Finset Int} {s2 : AState} {sent : List Pkt} :
      ReachG g → A_timerinterrupt g.1 = TOut.ok s2 sent → ReachG (s2, g.2)

/-- The number of sequence numbers in the sender window `[base, next)`,
i.e. `(next_seqnum - base) mod SEQSPACE`. -/
def wcount (b n : Int) : Nat := ((n - b + SEQSPACE) % SEQSPACE).toNat

/-- The window range `{base, base+1, ..., next_seqnum-1} mod SEQSPACE`
named by claim C7. -/
def wrange (b n : Int) : Finset Int :=
  ((List.range (wcount b n)).map (fun i : Nat => (b + (i : Int)) % SEQSPACE)).toFinset

/-- The reachable ghost state refuting claim C7: submit one message (frame
0), receive an uncorrupted in-window ack for the never-sent sequence
number 1 (marking slot 1), then receive the ack for 0 — the slide loop
then also slides over the spurious slot-1 mark, ending with base = 2,
next_seqnum = 1 and an empty in-flight set. -/
def c7state : AState × Finset Int :=
  gA_input (gA_input (gA_output (A_init, ∅) cmsg) (mkAckPkt 1)) (mkAckPkt 0)

/-- Number of set acked flags; each slide iteration clears one, so this
bounds the iteration count of the slide loop. -/
def ackedCount (a : Fin 6 → Bool) : Nat :=
  (Finset.univ.filter (fun i => a i = true)).card

/-- What the slide loop of `A_input` does, as a relation between the state
before (`s`), the state after (`r`) and the number of iterations (`k`). -/
def SlideOut (s r : AState) (k : Nat) : Prop :=
  r.next_seqnum = s.next_seqnum ∧
  r.sender_buffer = s.sender_buffer ∧
  r.resend_count = s.resend_count ∧
  r.window_full = s.window_full ∧
  r.packets_resent = s.packets_resent ∧
  r.acked (bufIdx6 r.base) = false ∧
  (k = 0 → r = s) ∧
  (1 ≤ k →
    r.base = (s.base + (k : Int)) % SEQSPACE ∧
    r.timer = decide ((r.base - s.next_seqnum + SEQSPACE) % SEQSPACE < WINDOWSIZE)) ∧
  (s.acked (bufIdx6 s.base) = false ↔ k = 0)

/-- Sender-state well-formedness maintained by every entry point: `base`
and `next_seqnum` are reduced mod SEQSPACE and the slot at `base` is never
left marked acked (the slide loop of `A_input` runs to exhaustion). -/
def InvA (s : AState) : Prop :=
  0 ≤ s.base ∧ s.base < SEQSPACE ∧ 0 ≤ s.next_seqnum ∧ s.next_seqnum < SEQSPACE ∧
  s.acked (bufIdx6 s.base) = false

/-- Plain sender states reachable from `A_init` under any sequence of
submit, on_ack and (non-fatal) on_timeout events. -/
inductive ReachA : AState → Prop where
  | init : ReachA A_init
  | subm {s : AState} (m : MsgT) : ReachA s → ReachA (A_output s m).1
  | ack {s : AState} (p : Pkt) : ReachA s → ReachA (A_input s p)
  | tmo {s : AState} {s2 : AState} {sent : List Pkt} :
      ReachA s → A_timerinterrupt s = TOut.ok s2 sent → ReachA s2

/-- Iterated submissions from `A_init`, collecting all packets sent, for
the window-full scenario of claim C8. -/
def runSub : Nat → AState × List Pkt
  | 0 => (A_init, [])
  | k + 1 => ((A_output (runSub k).1 cmsg).1, (runSub k).2 ++ (A_output (runSub k).1 cmsg).2)

/-- Receiver-state well-formedness established by every `B_input`:
`expected_seqnum` is reduced mod SEQSPACE and every set received mark sits
at the slot of its stored frame's sequence number, which is a data-model
sequence number inside the current receive window. -/
def InvB (s : RState) : Prop :=
  0 ≤ s.expected_seqnum ∧ s.expected_seqnum < SEQSPACE ∧
  ∀ i : Fin 6, s.received i = true →
    0 ≤ (s.receiver_buffer i).seqnum ∧ (s.receiver_buffer i).seqnum < SEQSPACE ∧
    bufIdx6 (s.receiver_buffer i).seqnum = i ∧
    ((s.receiver_buffer i).seqnum - s.expected_seqnum + SEQSPACE) % SEQSPACE < WINDOWSIZE

/-- Core invariant tying a receiver state to the list of frame indices
processed so far, for a run of `n ≤ SEQSPACE` submitted messages (so
frame k has sequence number k): `d` frames have been delivered, every
index below `d` has been processed, and every processed index at or above
`d` is buffered at its own slot, less than `d + WINDOWSIZE`; conversely
every set mark is accounted for by exactly such an index. -/
def InvCore (pay : Nat → Fin 20 → Int) (n : Nat) (processed : List Nat)
    (st : RState) (d : Nat) : Prop :=
  st.expected_seqnum = (d : Int) % SEQSPACE ∧
  (∀ k ∈ processed, k < n) ∧
  (∀ k, k < d → k ∈ processed) ∧
  (∀ k ∈ processed, d ≤ k →
    k < d + 6 ∧ st.received (bufIdx6 (k : Int)) = true ∧
    st.receiver_buffer (bufIdx6 (k : Int)) = mkFrame pay k) ∧
  (∀ i : Fin 6, st.received i = true →
    ∃ k, k ∈ processed ∧ d ≤ k ∧ k < n ∧ k < d + 6 ∧ bufIdx6 (k : Int) = i ∧
      st.receiver_buffer i = mkFrame pay k)

/-- Full receiver invariant: some `d ≤ n` frames have been delivered in
submission order and the core invariant holds with the delivery loop at
rest (the slot at `expected` unmarked). -/
def InvR (pay : Nat → Fin 20 → Int) (n : Nat) (processed : List Nat)
    (st : RState) (dl : List (Fin 20 → Int)) : Prop :=
  ∃ d : Nat, d ≤ n ∧ InvCore pay n processed st d ∧
    dl = (List.range d).map pay ∧
    st.received (bufIdx6 ((d : Int) % SEQSPACE)) = false

/-- Sender state after one submission from `A_init` (base 0, frame 0
outstanding, timer running). -/
def s1out : AState := (A_output A_init cmsg).1

/-- Sender state after three submissions from `A_init` (frames 0,1,2
outstanding). -/
def s3out : AState :=
  (A_output ((A_output ((A_output A_init cmsg).1) cmsg).1) cmsg).1

/-- Sender state after three submissions and an ack for frame 1: frames
0,1,2 outstanding, slot 1 marked acked, base still 0. -/
def c3s : AState := A_input s3out (mkAckPkt 1)

/-- A sender state whose base frame has exhausted its retries. -/
def exhaustedState : AState := { s1out with resend_count := fun _ => MAX_RETRIES }

/-- The intermediate sender state of `A_input` after the mark/duplicate
branch and before the slide loop: a fresh in-window ack marks its slot and
resets its retry counter, a duplicate changes nothing. -/
def markState (s : AState) (p : Pkt) : AState :=
  if s.acked (bufIdx6 p.acknum) then s
  else { s with
          acked := Function.update s.acked (bufIdx6 p.acknum) true
          resend_count := Function.update s.resend_count (idx7 p.acknum) 0 }

/-- The intermediate receiver state of `B_input` on an uncorrupted
in-window packet, after the ack-number update and the store/duplicate
branch and before the delivery loop. -/
def markR (s : RState) (p : Pkt) : RState :=
  let s1 := { s with B_nextseqnum := (s.B_nextseqnum + 1) % 2 }
  if s1.received (bufIdx6 p.seqnum) then s1
  else { s1 with
          receiver_buffer := Function.update s1.receiver_buffer (bufIdx6 p.seqnum) p
          received := Function.update s1.received (bufIdx6 p.seqnum) true
          packets_received := s1.packets_received + 1 }

/-! ### Supporting lemmas -/

theorem isCorrupted_false_iff (p : Pkt) :
    IsCorrupted p = false ↔ p.checksum = ComputeChecksum p := by
  simp [IsCorrupted]

theorem isCorrupted_true_iff (p : Pkt) :
    IsCorrupted p = true ↔ p.checksum ≠ ComputeChecksum p := by
  simp [IsCorrupted]

theorem payloadSum_update (p : Fin 20 → Int) (i : Fin 20) (v : Int) :
    payloadSum (Function.update p i v) = payloadSum p - p i + v := by
  unfold payloadSum
  rw [Finset.sum_update_of_mem (Finset.mem_univ i),
    Finset.sdiff_singleton_eq_erase, Finset.sum_erase_eq_sub (Finset.mem_univ i)]
  ring

/-! ### Claim C9: checksum sensitivity -/

/-- C9: for every frame whose stored checksum matches the recomputed one,
changing any single payload byte, the seqnum field, or the acknum field to
a different value turns `IsCorrupted` from false to true. -/
theorem checksum_sensitivity (F : Pkt) (h : IsCorrupted F = false) :
    (∀ (i : Fin 20) (v : Int), v ≠ F.payload i →
      IsCorrupted { F with payload := Function.update F.payload i v } = true) ∧
    (∀ v : Int, v ≠ F.seqnum → IsCorrupted { F with seqnum := v } = true) ∧
    (∀ v : Int, v ≠ F.acknum → IsCorrupted { F with acknum := v } = true) := by
  rw [isCorrupted_false_iff] at h
  refine ⟨fun i v hv => ?_, fun v hv => ?_, fun v hv => ?_⟩ <;>
    rw [isCorrupted_true_iff] <;>
    simp only [ComputeChecksum] at h ⊢
  · have hps : F.payload i ≠ v := fun hc => hv hc.symm
    simp only [payloadSum_update]
    omega
  · simpa using fun hc => hv (by omega)
  · simpa using fun hc => hv (by omega)

/-- Witness for C9 at a concrete frame. -/
theorem checksum_sensitivity_witness :
    IsCorrupted (mkDataPkt 0 cmsg) = false ∧
    IsCorrupted { mkDataPkt 0 cmsg with
      payload := Function.update (mkDataPkt 0 cmsg).payload 3 99 } = true ∧
    IsCorrupted { mkDataPkt 0 cmsg with seqnum := 5 } = true ∧
    IsCorrupted { mkDataPkt 0 cmsg with acknum := 2 } = true :=
  ⟨by decide,
   (checksum_sensitivity (mkDataPkt 0 cmsg) (by decide)).1 3 99 (by decide),
   (checksum_sensitivity (mkDataPkt 0 cmsg) (by decide)).2.1 5 (by decide),
   (checksum_sensitivity (mkDataPkt 0 cmsg) (by decide)).2.2 2 (by decide)⟩

/-! ### Claim C5: timeout retransmits only the frame at base -/

/-- C5: whenever the retry counter of the base frame is below MAX_RETRIES,
`A_timerinterrupt` retransmits exactly one frame — the buffered frame at
`base` — increments that frame's retry counter, and restarts the timer. -/
theorem A_timerinterrupt_resends_base_only (s : AState)
    (h : s.resend_count (idx7 s.base) < MAX_RETRIES) :
    ∃ s2 : AState,
      A_timerinterrupt s = TOut.ok s2 [s.sender_buffer (bufIdx6 s.base)] ∧
      s2.resend_count (idx7 s.base) = s.resend_count (idx7 s.base) + 1 ∧
      s2.timer = true := by
  unfold A_timerinterrupt
  rw [if_neg (by omega)]
  exact ⟨_, rfl, by simp, rfl⟩

/-- Witness for C5: one frame outstanding, retries still zero. -/
theorem A_timerinterrupt_resends_base_only_witness :
    s1out.resend_count (idx7 s1out.base) < MAX_RETRIES ∧
    ∃ s2 : AState,
      A_timerinterrupt s1out = TOut.ok s2 [s1out.sender_buffer (bufIdx6 s1out.base)] ∧
      s2.resend_count (idx7 s1out.base) = s1out.resend_count (idx7 s1out.base) + 1 ∧
      s2.timer = true :=
  ⟨by decide, A_timerinterrupt_resends_base_only s1out (by decide)⟩

/-! ### Claim C6: retry exhaustion is a hard failure -/

/-- C6: when the retry counter of the base frame has reached MAX_RETRIES,
`A_timerinterrupt` is the fatal `exit(1)`: the frame is not retransmitted
and the session does not continue in any successor state. -/
theorem A_timerinterrupt_retry_exhaustion_fatal (s : AState)
    (h : MAX_RETRIES ≤ s.resend_count (idx7 s.base)) :
    A_timerinterrupt s = TOut.fatal ∧
    ∀ (s2 : AState) (sent : List Pkt), A_timerinterrupt s ≠ TOut.ok s2 sent := by
  have hf : A_timerinterrupt s = TOut.fatal := by
    unfold A_timerinterrupt
    rw [if_pos h]
  exact ⟨hf, fun s2 sent hc => by rw [hf] at hc; exact TOut.noConfusion hc⟩

/-- Witness for C6 at a concrete exhausted state. -/
theorem A_timerinterrupt_retry_exhaustion_fatal_witness :
    MAX_RETRIES ≤ exhaustedState.resend_count (idx7 exhaustedState.base) ∧
    A_timerinterrupt exhaustedState = TOut.fatal :=
  ⟨by decide, (A_timerinterrupt_retry_exhaustion_fatal exhaustedState (by decide)).1⟩

/-! ### Claim C10: frame effect of a non-fatal timeout -/

/-- C10: a non-fatal `A_timerinterrupt` leaves `base`, `next_seqnum`, the
buffered frames and all acked flags unchanged; the only window-state
change is the increment of the base frame's retry counter, and the timer
is restarted. -/
theorem A_timerinterrupt_frame_effect (s : AState)
    (h : s.resend_count (idx7 s.base) < MAX_RETRIES) :
    ∃ (s2 : AState) (sent : List Pkt),
      A_timerinterrupt s = TOut.ok s2 sent ∧
      s2.base = s.base ∧ s2.next_seqnum = s.next_seqnum ∧
      s2.sender_buffer = s.sender_buffer ∧ s2.acked = s.acked ∧
      s2.resend_count = Function.update s.resend_count (idx7 s.base)
        (s.resend_count (idx7 s.base) + 1) ∧
      s2.timer = true := by
  unfold A_timerinterrupt
  rw [if_neg (by omega)]
  exact ⟨_, _, rfl, rfl, rfl, rfl, rfl, rfl, rfl⟩

/-- Witness for C10 at a concrete state. -/
theorem A_timerinterrupt_frame_effect_witness :
    s3out.resend_count (idx7 s3out.base) < MAX_RETRIES ∧
    ∃ (s2 : AState) (sent : List Pkt),
      A_timerinterrupt s3out = TOut.ok s2 sent ∧
      s2.base = s3out.base ∧ s2.next_seqnum = s3out.next_seqnum ∧
      s2.sender_buffer = s3out.sender_buffer ∧ s2.acked = s3out.acked ∧
      s2.resend_count = Function.update s3out.resend_count (idx7 s3out.base)
        (s3out.resend_count (idx7 s3out.base) + 1) ∧
      s2.timer = true :=
  ⟨by decide, A_timerinterrupt_frame_effect s3out (by decide)⟩

/-! ### Claim C8: submission backpressure -/

/-- C8: `A_output` builds and transmits a new frame exactly when
`(next_seqnum - base) mod SEQSPACE < WINDOWSIZE`; a window-full submission
only increments the backpressure counter, sends nothing, queues nothing,
and leaves all window state unchanged. -/
theorem A_output_backpressure (s : AState) (m : MsgT) :
    ((s.next_seqnum - s.base + SEQSPACE) % SEQSPACE < WINDOWSIZE →
      A_output s m =
        ({ s with
            sender_buffer := Function.update s.sender_buffer (bufIdx6 s.next_seqnum)
              (mkDataPkt s.next_seqnum m)
            acked := Function.update s.acked (bufIdx6 s.next_seqnum) false
            timer := if s.base = s.next_seqnum then true else s.timer
            next_seqnum := (s.next_seqnum + 1) % SEQSPACE },
         [mkDataPkt s.next_seqnum m])) ∧
    (¬ (s.next_seqnum - s.base + SEQSPACE) % SEQSPACE < WINDOWSIZE →
      A_output s m = ({ s with window_full := s.window_full + 1 }, [])) := by
  constructor <;> intro h <;> unfold A_output
  · rw [if_pos h]
  · rw [if_neg h]

/-- Witness for C8, scenario A: with WINDOWSIZE 6 and SEQSPACE 7, six
back-to-back submissions send frames 0..5, the seventh is rejected with
only the backpressure counter incremented, and after an ack for frame 0
the window has room again. -/
theorem A_output_backpressure_witness :
    (runSub 6).2.map Pkt.seqnum = [0, 1, 2, 3, 4, 5] ∧
    ¬ ((runSub 6).1.next_seqnum - (runSub 6).1.base + SEQSPACE) % SEQSPACE < WINDOWSIZE ∧
    A_output (runSub 6).1 cmsg =
      ({ (runSub 6).1 with window_full := (runSub 6).1.window_full + 1 }, []) ∧
    ((A_input (runSub 6).1 (mkAckPkt 0)).next_seqnum -
        (A_input (runSub 6).1 (mkAckPkt 0)).base + SEQSPACE) % SEQSPACE < WINDOWSIZE :=
  ⟨by decide, by decide,
   (A_output_backpressure (runSub 6).1 cmsg).2 (by decide), by decide⟩

/-! ### The slide loop of `A_input` -/

theorem ackedCount_le_six (a : Fin 6 → Bool) : ackedCount a ≤ 6 := by
  unfold ackedCount
  calc (Finset.univ.filter (fun i => a i = true)).card
      ≤ Finset.univ.card := Finset.card_filter_le _ _
    _ = 6 := by simp

theorem ackedCount_update_false (a : Fin 6 → Bool) (i : Fin 6) (h : a i = true) :
    ackedCount (Function.update a i false) + 1 = ackedCount a := by
  unfold ackedCount
  have hset : Finset.univ.filter (fun j => Function.update a i false j = true) =
      (Finset.univ.filter (fun j => a j = true)).erase i := by
    ext j
    by_cases hj : j = i
    · subst hj; simp
    · simp [Function.update_noteq hj, hj]
  have hmem : i ∈ Finset.univ.filter (fun j => a j = true) := by simp [h]
  have hpos : 0 < (Finset.univ.filter (fun j => a j = true)).card :=
    Finset.card_pos.2 ⟨i, hmem⟩
  rw [hset, Finset.card_erase_of_mem hmem]
  omega

theorem ackedCount_pos_of_true (a : Fin 6 → Bool) (i : Fin 6) (h : a i = true) :
    0 < ackedCount a :=
  Finset.card_pos.2 ⟨i, by simp [h]⟩

theorem slide_of_flag_false (fuel : Nat) (s : AState)
    (hflag : s.acked (bufIdx6 s.base) = false) : slide (fuel + 1) s = s := by
  simp [slide, hflag]

theorem slideOut_refl (s : AState) (hflag : s.acked (bufIdx6 s.base) = false) :
    SlideOut s s 0 :=
  ⟨rfl, rfl, rfl, rfl, rfl, hflag, fun _ => rfl,
   fun h => absurd h (by omega), by simp [hflag]⟩

theorem slide_spec (fuel : Nat) :
    ∀ s : AState, ackedCount s.acked ≤ fuel →
      ∃ k : Nat, k ≤ fuel ∧ SlideOut s (slide (fuel + 1) s) k := by
  induction fuel with
  | zero =>
    intro s hc
    have hflag : s.acked (bufIdx6 s.base) = false := by
      by_contra hne
      have htrue : s.acked (bufIdx6 s.base) = true := by
        cases hb : s.acked (bufIdx6 s.base) <;> simp_all
      have := ackedCount_pos_of_true s.acked (bufIdx6 s.base) htrue
      omega
    exact ⟨0, le_refl 0, by rw [slide_of_flag_false 0 s hflag]; exact slideOut_refl s hflag⟩
  | succ fuel ih =>
    intro s hc
    by_cases hflag : s.acked (bufIdx6 s.base) = true
    · have hstep : slide (fuel + 1 + 1) s = slide (fuel + 1) (slideStep s) := by
        show (if s.acked (bufIdx6 s.base) then slide (fuel + 1) (slideStep s) else s) =
          slide (fuel + 1) (slideStep s)
        rw [if_pos hflag]
      have hc2 : ackedCount (slideStep s).acked ≤ fuel := by
        have hdec := ackedCount_update_false s.acked (bufIdx6 s.base) hflag
        have hsa : (slideStep s).acked = Function.update s.acked (bufIdx6 s.base) false := rfl
        rw [hsa]
        omega
      obtain ⟨k0, hk0, h1, h2, h3, h4, h5, h6, h7, h8, h9⟩ := ih (slideStep s) hc2
      refine ⟨k0 + 1, by omega, ?_⟩
      rw [hstep]
      refine ⟨h1, h2, h3, h4, h5, h6,
        fun h => absurd h (Nat.succ_ne_zero k0), fun _ => ?_, by simp [hflag]⟩
      by_cases hk00 : k0 = 0
      · subst hk00
        have hr : slide (fuel + 1) (slideStep s) = slideStep s := h7 rfl
        constructor
        · rw [hr]
          show (s.base + 1) % SEQSPACE = (s.base + ((0 + 1 : Nat) : Int)) % SEQSPACE
          norm_num
        · rw [hr]
          rfl
      · obtain ⟨hb, ht⟩ := h8 (by omega)
        constructor
        · rw [hb]
          show ((s.base + 1) % SEQSPACE + (k0 : Int)) % SEQSPACE =
            (s.base + ((k0 + 1 : Nat) : Int)) % SEQSPACE
          simp only [SEQSPACE]
          push_cast
          omega
        · exact ht
    · have hflag2 : s.acked (bufIdx6 s.base) = false := by
        cases hb : s.acked (bufIdx6 s.base) <;> simp_all
      exact ⟨0, by omega,
        by rw [slide_of_flag_false (fuel + 1) s hflag2]; exact slideOut_refl s hflag2⟩

/-- The slide-loop exit condition holds after `A_input`, whenever it held
before: the slot at the (new) base is never left marked. -/
theorem A_input_acked_base (s : AState) (p : Pkt)
    (hws : s.acked (bufIdx6 s.base) = false) :
    (A_input s p).acked (bufIdx6 (A_input s p).base) = false := by
  unfold A_input
  by_cases hcor : IsCorrupted p = true
  · rw [if_pos hcor]; exact hws
  · rw [if_neg hcor]
    by_cases hwin : (p.acknum - s.base + SEQSPACE) % SEQSPACE < WINDOWSIZE
    · rw [if_pos hwin]
      obtain ⟨k, hk, hout⟩ := slide_spec 6
        (if s.acked (bufIdx6 p.acknum) then s
         else { s with
                acked := Function.update s.acked (bufIdx6 p.acknum) true
                resend_count := Function.update s.resend_count (idx7 p.acknum) 0 })
        (ackedCount_le_six _)
      exact hout.2.2.2.2.2.1
    · rw [if_neg hwin]; exact hws

/-- `A_input` is the identity on an acknum outside the sender window. -/
theorem A_input_out_of_window (s : AState) (p : Pkt)
    (hwin : ¬ (p.acknum - s.base + SEQSPACE) % SEQSPACE < WINDOWSIZE) :
    A_input s p = s := by
  unfold A_input
  by_cases hcor : IsCorrupted p = true
  · rw [if_pos hcor]
  · rw [if_neg hcor, if_neg hwin]

/-- `A_input` is the identity on a duplicate ack (slot already marked),
provided the slot at base is unmarked (true in every reachable state). -/
theorem A_input_dup (s : AState) (p : Pkt)
    (hws : s.acked (bufIdx6 s.base) = false)
    (hdup : s.acked (bufIdx6 p.acknum) = true) :
    A_input s p = s := by
  unfold A_input
  by_cases hcor : IsCorrupted p = true
  · rw [if_pos hcor]
  · rw [if_neg hcor]
    by_cases hwin : (p.acknum - s.base + SEQSPACE) % SEQSPACE < WINDOWSIZE
    · rw [if_pos hwin]
      simp only [hdup, if_true]
      exact slide_of_flag_false 6 s hws
    · rw [if_neg hwin]
theorem slide7_spec (s : AState) : ∃ k : Nat, k ≤ 6 ∧ SlideOut s (slide 7 s) k := by
  obtain ⟨k, hk, hout⟩ := slide_spec 6 s (ackedCount_le_six _)
  exact ⟨k, hk, hout⟩

theorem A_input_corrupted (s : AState) (p : Pkt) (hcor : IsCorrupted p = true) :
    A_input s p = s := by
  unfold A_input
  rw [if_pos hcor]

theorem A_input_eq_slide (s : AState) (p : Pkt) (hcor : IsCorrupted p = false)
    (hwin : (p.acknum - s.base + SEQSPACE) % SEQSPACE < WINDOWSIZE) :
    A_input s p = slide 7 (markState s p) := by
  unfold A_input
  rw [hcor]
  simp only [Bool.false_eq_true, if_false]
  rw [if_pos hwin]
  rfl

theorem markState_base (s : AState) (p : Pkt) : (markState s p).base = s.base := by
  unfold markState
  by_cases h : s.acked (bufIdx6 p.acknum) = true <;> simp [h]

theorem markState_next (s : AState) (p : Pkt) :
    (markState s p).next_seqnum = s.next_seqnum := by
  unfold markState
  by_cases h : s.acked (bufIdx6 p.acknum) = true <;> simp [h]

theorem markState_buffer (s : AState) (p : Pkt) :
    (markState s p).sender_buffer = s.sender_buffer := by
  unfold markState
  by_cases h : s.acked (bufIdx6 p.acknum) = true <;> simp [h]

theorem markState_timer (s : AState) (p : Pkt) : (markState s p).timer = s.timer := by
  unfold markState
  by_cases h : s.acked (bufIdx6 p.acknum) = true <;> simp [h]

/-! ### Sender well-formedness along reachable states -/

theorem invA_init : InvA A_init := by
  refine ⟨?_, ?_, ?_, ?_, rfl⟩ <;> norm_num [A_init, SEQSPACE]

theorem invA_output (s : AState) (m : MsgT) (h : InvA s) : InvA (A_output s m).1 := by
  obtain ⟨hb0, hb1, hn0, hn1, hws⟩ := h
  unfold A_output
  by_cases hc : (s.next_seqnum - s.base + SEQSPACE) % SEQSPACE < WINDOWSIZE
  · rw [if_pos hc]
    refine ⟨hb0, hb1, ?_, ?_, ?_⟩
    · show 0 ≤ (s.next_seqnum + 1) % SEQSPACE
      simp only [SEQSPACE]
      omega
    · show (s.next_seqnum + 1) % SEQSPACE < SEQSPACE
      simp only [SEQSPACE]
      omega
    · show Function.update s.acked (bufIdx6 s.next_seqnum) false (bufIdx6 s.base) = false
      rw [Function.update_apply]
      simp [hws]
  · rw [if_neg hc]
    exact ⟨hb0, hb1, hn0, hn1, hws⟩

theorem invA_input (s : AState) (p : Pkt) (h : InvA s) : InvA (A_input s p) := by
  obtain ⟨hb0, hb1, hn0, hn1, hws⟩ := h
  by_cases hcor : IsCorrupted p = true
  · rw [A_input_corrupted s p hcor]
    exact ⟨hb0, hb1, hn0, hn1, hws⟩
  · have hcor2 : IsCorrupted p = false := by
      cases hcc : IsCorrupted p <;> simp_all
    by_cases hwin : (p.acknum - s.base + SEQSPACE) % SEQSPACE < WINDOWSIZE
    · rw [A_input_eq_slide s p hcor2 hwin]
      obtain ⟨k, hk, h1, h2, h3, h4, h5, h6, h7, h8, h9⟩ := slide7_spec (markState s p)
      by_cases hk0 : k = 0
      · rw [h7 hk0]
        refine ⟨?_, ?_, ?_, ?_, ?_⟩
        · rw [markState_base]; exact hb0
        · rw [markState_base]; exact hb1
        · rw [markState_next]; exact hn0
        · rw [markState_next]; exact hn1
        · exact h9.mpr hk0
      · obtain ⟨hbeq, _⟩ := h8 (by omega)
        rw [markState_base] at hbeq
        refine ⟨?_, ?_, ?_, ?_, h6⟩
        · rw [hbeq]; simp only [SEQSPACE]; omega
        · rw [hbeq]; simp only [SEQSPACE]; omega
        · rw [h1, markState_next]; exact hn0
        · rw [h1, markState_next]; exact hn1
    · rw [A_input_out_of_window s p hwin]
      exact ⟨hb0, hb1, hn0, hn1, hws⟩

theorem invA_tmo (s s2 : AState) (sent : List Pkt) (h : InvA s)
    (he : A_timerinterrupt s = TOut.ok s2 sent) : InvA s2 := by
  obtain ⟨hb0, hb1, hn0, hn1, hws⟩ := h
  unfold A_timerinterrupt at he
  by_cases hc : MAX_RETRIES ≤ s.resend_count (idx7 s.base)
  · rw [if_pos hc] at he
    exact absurd he (by simp)
  · rw [if_neg hc] at he
    injection he with h1 h2
    subst h1
    exact ⟨hb0, hb1, hn0, hn1, hws⟩

/-- Every reachable sender state is well-formed: base and next_seqnum are
reduced mod SEQSPACE and the acked slot at base is unmarked. -/
theorem reachA_inv {s : AState} (h : ReachA s) : InvA s := by
  induction h with
  | init => exact invA_init
  | subm m _ ih => exact invA_output _ m ih
  | ack p _ ih => exact invA_input _ p ih
  | tmo _ he ih => exact invA_tmo _ _ _ ih he

/-! ### Claim C2: effect of a valid acknowledgment -/

/-- C2 counterexample: from `A_init` submit one message (frame 0
outstanding, base = 0 = acknum) and receive the valid ack 0.  The slide
leaves base = next_seqnum — no frame outstanding — yet the timer ends
RUNNING, because the code's test `(base - next_seqnum + SEQSPACE) %
SEQSPACE < WINDOWSIZE` evaluates to `0 < 6` there; the claim requires the
timer to be stopped. -/
theorem A_input_timer_counterexample :
    IsCorrupted (mkAckPkt 0) = false ∧
    ((mkAckPkt 0).acknum - s1out.base + SEQSPACE) % SEQSPACE < WINDOWSIZE ∧
    (A_input s1out (mkAckPkt 0)).base = (A_input s1out (mkAckPkt 0)).next_seqnum ∧
    (A_input s1out (mkAckPkt 0)).timer = true :=
  ⟨by decide, by decide, by decide, by decide⟩

/-- C2 amended: a valid in-window ack marks its slot (resetting that retry
counter) when new; the slide loop then runs exactly when the marked slot
is the slot of `base`, advancing base past every contiguously-acked slot.
The timer, however, follows the code's inverted test: if no slide occurs
the timer is left untouched, and after a slide it ends running iff
`(base - next_seqnum + SEQSPACE) % SEQSPACE < WINDOWSIZE` holds at the
final base — which leaves it running when zero frames remain outstanding
and stopped when exactly one remains. -/
theorem A_input_ack_mark_slide_amended (s : AState) (p : Pkt)
    (hws : s.acked (bufIdx6 s.base) = false)
    (hcor : IsCorrupted p = false)
    (hwin : (p.acknum - s.base + SEQSPACE) % SEQSPACE < WINDOWSIZE) :
    (A_input s p).next_seqnum = s.next_seqnum ∧
    (A_input s p).sender_buffer = s.sender_buffer ∧
    (s.acked (bufIdx6 p.acknum) = false →
      (A_input s p).resend_count (idx7 p.acknum) = 0) ∧
    (A_input s p).acked (bufIdx6 (A_input s p).base) = false ∧
    (bufIdx6 p.acknum ≠ bufIdx6 s.base →
      (A_input s p).base = s.base ∧ (A_input s p).timer = s.timer ∧
      (s.acked (bufIdx6 p.acknum) = false →
        (A_input s p).acked (bufIdx6 p.acknum) = true)) ∧
    (bufIdx6 p.acknum = bufIdx6 s.base →
      ∃ k : Nat, 1 ≤ k ∧ k ≤ 6 ∧
        (A_input s p).base = (s.base + (k : Int)) % SEQSPACE ∧
        (A_input s p).timer =
          decide (((A_input s p).base - s.next_seqnum + SEQSPACE) % SEQSPACE <
            WINDOWSIZE)) := by
  rw [A_input_eq_slide s p hcor hwin]
  obtain ⟨k, hk, h1, h2, h3, h4, h5, h6, h7, h8, h9⟩ := slide7_spec (markState s p)
  by_cases hdup : s.acked (bufIdx6 p.acknum) = true
  · have hm : markState s p = s := by
      unfold markState
      rw [if_pos hdup]
    have hk0 : k = 0 := h9.mp (by rw [hm]; exact hws)
    have hr : slide 7 (markState s p) = s := by rw [h7 hk0, hm]
    refine ⟨by rw [hr], by rw [hr], ?_, h6, ?_, ?_⟩
    · intro hfresh
      rw [hfresh] at hdup
      exact absurd hdup (by simp)
    · intro _
      refine ⟨by rw [hr], by rw [hr], ?_⟩
      intro hfresh
      rw [hfresh] at hdup
      exact absurd hdup (by simp)
    · intro he
      rw [he] at hdup
      rw [hws] at hdup
      exact absurd hdup (by simp)
  · have hfresh : s.acked (bufIdx6 p.acknum) = false := by
      cases hcc : s.acked (bufIdx6 p.acknum) <;> simp_all
    have hm : markState s p =
        { s with
            acked := Function.update s.acked (bufIdx6 p.acknum) true
            resend_count := Function.update s.resend_count (idx7 p.acknum) 0 } := by
      unfold markState
      rw [if_neg hdup]
    by_cases he : bufIdx6 p.acknum = bufIdx6 s.base
    · have hflag : (markState s p).acked (bufIdx6 (markState s p).base) = true := by
        rw [markState_base, hm]
        show Function.update s.acked (bufIdx6 p.acknum) true (bufIdx6 s.base) = true
        rw [← he, Function.update_same]
      have hk1 : k ≠ 0 := by
        intro hk0
        have hf := h9.mpr hk0
        rw [hf] at hflag
        exact absurd hflag (by simp)
      obtain ⟨hbeq, htim⟩ := h8 (by omega)
      rw [markState_base] at hbeq
      rw [markState_next] at htim
      refine ⟨by rw [h1, markState_next], by rw [h2, markState_buffer], ?_, h6, ?_, ?_⟩
      · intro _
        rw [h3, hm]
        show Function.update s.resend_count (idx7 p.acknum) 0 (idx7 p.acknum) = 0
        rw [Function.update_same]
      · intro hne
        exact absurd he hne
      · intro _
        exact ⟨k, by omega, hk, hbeq, htim⟩
    · have hflag : (markState s p).acked (bufIdx6 (markState s p).base) = false := by
        rw [markState_base, hm]
        show Function.update s.acked (bufIdx6 p.acknum) true (bufIdx6 s.base) = false
        rw [Function.update_noteq (fun hcc => he hcc.symm)]
        exact hws
      have hk0 : k = 0 := h9.mp hflag
      have hr : slide 7 (markState s p) = markState s p := h7 hk0
      refine ⟨by rw [hr, markState_next], by rw [hr, markState_buffer], ?_, h6, ?_, ?_⟩
      · intro _
        rw [hr, hm]
        show Function.update s.resend_count (idx7 p.acknum) 0 (idx7 p.acknum) = 0
        rw [Function.update_same]
      · intro _
        refine ⟨by rw [hr, markState_base], by rw [hr, markState_timer], ?_⟩
        intro _
        rw [hr, hm]
        show Function.update s.acked (bufIdx6 p.acknum) true (bufIdx6 p.acknum) = true
        rw [Function.update_same]
      · intro hee
        exact absurd hee he

/-- Witness for the amended C2 at a concrete state: one frame outstanding,
valid ack for it. -/
theorem A_input_ack_mark_slide_amended_witness :
    (s1out.acked (bufIdx6 s1out.base) = false ∧
      IsCorrupted (mkAckPkt 0) = false ∧
      ((mkAckPkt 0).acknum - s1out.base + SEQSPACE) % SEQSPACE < WINDOWSIZE) ∧
    ((A_input s1out (mkAckPkt 0)).next_seqnum = s1out.next_seqnum ∧
    (A_input s1out (mkAckPkt 0)).sender_buffer = s1out.sender_buffer ∧
    (s1out.acked (bufIdx6 (mkAckPkt 0).acknum) = false →
      (A_input s1out (mkAckPkt 0)).resend_count (idx7 (mkAckPkt 0).acknum) = 0) ∧
    (A_input s1out (mkAckPkt 0)).acked (bufIdx6 (A_input s1out (mkAckPkt 0)).base) = false ∧
    (bufIdx6 (mkAckPkt 0).acknum ≠ bufIdx6 s1out.base →
      (A_input s1out (mkAckPkt 0)).base = s1out.base ∧
      (A_input s1out (mkAckPkt 0)).timer = s1out.timer ∧
      (s1out.acked (bufIdx6 (mkAckPkt 0).acknum) = false →
        (A_input s1out (mkAckPkt 0)).acked (bufIdx6 (mkAckPkt 0).acknum) = true)) ∧
    (bufIdx6 (mkAckPkt 0).acknum = bufIdx6 s1out.base →
      ∃ k : Nat, 1 ≤ k ∧ k ≤ 6 ∧
        (A_input s1out (mkAckPkt 0)).base = (s1out.base + (k : Int)) % SEQSPACE ∧
        (A_input s1out (mkAckPkt 0)).timer =
          decide (((A_input s1out (mkAckPkt 0)).base - s1out.next_seqnum + SEQSPACE) %
            SEQSPACE < WINDOWSIZE))) :=
  ⟨⟨by decide, by decide, by decide⟩,
   A_input_ack_mark_slide_amended s1out (mkAckPkt 0) (by decide) (by decide) (by decide)⟩

/-! ### Claim C3: no-change cases and idempotence of on_ack -/

/-- C3 counterexample: after submitting frames 0,1,2 and receiving ack 1,
receiving the valid ack 0 twice differs from receiving it once.  The first
receipt slides base from 0 to 2; because SEQSPACE = 7 < 2·WINDOWSIZE,
acknum 0 then RE-ENTERS the window `[2, 0]`, so the second receipt marks
slot 0 again (as if it acknowledged the never-sent frame 6) instead of
being ignored. -/
theorem A_input_idempotence_counterexample :
    IsCorrupted (mkAckPkt 0) = false ∧
    ((mkAckPkt 0).acknum - c3s.base + SEQSPACE) % SEQSPACE < WINDOWSIZE ∧
    A_input (A_input c3s (mkAckPkt 0)) (mkAckPkt 0) ≠ A_input c3s (mkAckPkt 0) :=
  ⟨by decide, by decide, by decide⟩

/-- C3 amended: corrupted acks, acks outside the window, and duplicate
acks for an already-marked slot cause no state change; and receiving the
same valid ack twice equals receiving it once PROVIDED that after the
first receipt the acknum is outside the new window or its slot is still
marked — the exception, possible because SEQSPACE = 7 < 2·WINDOWSIZE, is a
first receipt whose slide moves base so far that the acknum re-enters the
window with a cleared slot. -/
theorem A_input_no_change_amended (s : AState) (p : Pkt)
    (hws : s.acked (bufIdx6 s.base) = false) :
    (IsCorrupted p = true → A_input s p = s) ∧
    (¬ ((p.acknum - s.base + SEQSPACE) % SEQSPACE < WINDOWSIZE) → A_input s p = s) ∧
    (s.acked (bufIdx6 p.acknum) = true → A_input s p = s) ∧
    ((¬ ((p.acknum - (A_input s p).base + SEQSPACE) % SEQSPACE < WINDOWSIZE) ∨
        (A_input s p).acked (bufIdx6 p.acknum) = true) →
      A_input (A_input s p) p = A_input s p) := by
  refine ⟨A_input_corrupted s p, A_input_out_of_window s p, A_input_dup s p hws, ?_⟩
  intro hcase
  have hws2 := A_input_acked_base s p hws
  rcases hcase with hout | hdup2
  · exact A_input_out_of_window _ p hout
  · exact A_input_dup _ p hws2 hdup2

/-- Witness for the amended C3: one frame outstanding, valid ack 0; after
the first receipt acknum 0 is outside the new window, so the second
receipt changes nothing. -/
theorem A_input_no_change_amended_witness :
    (s1out.acked (bufIdx6 s1out.base) = false ∧
      ¬ (((mkAckPkt 0).acknum - (A_input s1out (mkAckPkt 0)).base + SEQSPACE) %
        SEQSPACE < WINDOWSIZE)) ∧
    A_input (A_input s1out (mkAckPkt 0)) (mkAckPkt 0) = A_input s1out (mkAckPkt 0) :=
  ⟨⟨by decide, by decide⟩,
   (A_input_no_change_amended s1out (mkAckPkt 0) (by decide)).2.2.2 (Or.inl (by decide))⟩

/-! ### Claim C7: the in-flight set and the sender window -/

theorem mem_wrange (b n x : Int) :
    x ∈ wrange b n ↔ ∃ i : Nat, i < wcount b n ∧ x = (b + (i : Int)) % SEQSPACE := by
  unfold wrange
  rw [List.mem_toFinset, List.mem_map]
  constructor
  · rintro ⟨i, hi, hx⟩
    exact ⟨i, List.mem_range.mp hi, hx.symm⟩
  · rintro ⟨i, hi, hx⟩
    exact ⟨i, List.mem_range.mpr hi, hx.symm⟩

theorem wcount_le (b n : Int) : wcount b n ≤ 6 := by
  unfold wcount
  simp only [SEQSPACE]
  omega

theorem wcount_step (b n : Int) (h1 : 1 ≤ wcount b n) :
    wcount ((b + 1) % SEQSPACE) n + 1 = wcount b n := by
  unfold wcount at *
  simp only [SEQSPACE] at *
  omega

theorem erase_subset_wrange (b n : Int) (hb0 : 0 ≤ b) (hb1 : b < SEQSPACE)
    (fl : Finset Int) (hsub : fl ⊆ wrange b n) :
    fl.erase b ⊆ wrange ((b + 1) % SEQSPACE) n := by
  intro x hx
  obtain ⟨hxb, hxf⟩ := Finset.mem_erase.mp hx
  obtain ⟨i, hi, hxe⟩ := (mem_wrange b n x).mp (hsub hxf)
  rcases Nat.eq_zero_or_pos i with hi0 | hip
  · exfalso
    apply hxb
    rw [hxe, hi0]
    simp only [SEQSPACE] at hb1 ⊢
    omega
  · refine (mem_wrange _ n x).mpr ⟨i - 1, ?_, ?_⟩
    · have := wcount_step b n (by omega)
      omega
    · rw [hxe]
      simp only [SEQSPACE]
      omega

theorem insert_subset_wrange (b n : Int) (_hb0 : 0 ≤ b) (_hb1 : b < SEQSPACE)
    (hn0 : 0 ≤ n) (hn1 : n < SEQSPACE)
    (hroom : (n - b + SEQSPACE) % SEQSPACE < WINDOWSIZE)
    (fl : Finset Int) (hsub : fl ⊆ wrange b n) :
    insert n fl ⊆ wrange b ((n + 1) % SEQSPACE) := by
  have hstep : wcount b ((n + 1) % SEQSPACE) = wcount b n + 1 := by
    unfold wcount
    simp only [SEQSPACE, WINDOWSIZE] at *
    omega
  intro x hx
  rcases Finset.mem_insert.mp hx with hxn | hxf
  · refine (mem_wrange _ _ _).mpr ⟨wcount b n, by omega, ?_⟩
    rw [hxn]
    unfold wcount
    simp only [SEQSPACE] at *
    omega
  · obtain ⟨i, hi, hxe⟩ := (mem_wrange b n x).mp (hsub hxf)
    exact (mem_wrange _ _ _).mpr ⟨i, by omega, hxe⟩

theorem gslide_sub (fuel : Nat) :
    ∀ g : AState × Finset Int,
      0 ≤ g.1.base → g.1.base < SEQSPACE →
      g.2 ⊆ wrange g.1.base g.1.next_seqnum →
      (gslide fuel g).2 ⊆
        wrange (gslide fuel g).1.base (gslide fuel g).1.next_seqnum ∧
      (gslide fuel g).1.next_seqnum = g.1.next_seqnum ∧
      0 ≤ (gslide fuel g).1.base ∧ (gslide fuel g).1.base < SEQSPACE := by
  induction fuel with
  | zero =>
    intro g h0 h1 hs
    exact ⟨hs, rfl, h0, h1⟩
  | succ fuel ih =>
    intro g h0 h1 hs
    by_cases hflag : g.1.acked (bufIdx6 g.1.base) = true
    · have hstep : gslide (fuel + 1) g =
          gslide fuel (slideStep g.1, g.2.erase g.1.base) := by
        show (if g.1.acked (bufIdx6 g.1.base) then
            gslide fuel (slideStep g.1, g.2.erase g.1.base) else g) =
          gslide fuel (slideStep g.1, g.2.erase g.1.base)
        rw [if_pos hflag]
      rw [hstep]
      have hb2 : (0 : Int) ≤ (g.1.base + 1) % SEQSPACE ∧
          (g.1.base + 1) % SEQSPACE < SEQSPACE := by
        simp only [SEQSPACE]
        omega
      obtain ⟨hA, hB, hC, hD⟩ := ih (slideStep g.1, g.2.erase g.1.base) hb2.1 hb2.2
        (erase_subset_wrange g.1.base g.1.next_seqnum h0 h1 g.2 hs)
      exact ⟨hA, hB, hC, hD⟩
    · have hg : gslide (fuel + 1) g = g := by
        show (if g.1.acked (bufIdx6 g.1.base) then
            gslide fuel (slideStep g.1, g.2.erase g.1.base) else g) = g
        rw [if_neg hflag]
      rw [hg]
      exact ⟨hs, rfl, h0, h1⟩

/-- Well-formedness of reachable ghost sender states: base and
next_seqnum are in range and the in-flight set is contained in the window
range. -/
theorem reachG_inv {g : AState × Finset Int} (h : ReachG g) :
    0 ≤ g.1.base ∧ g.1.base < SEQSPACE ∧
    0 ≤ g.1.next_seqnum ∧ g.1.next_seqnum < SEQSPACE ∧
    g.2 ⊆ wrange g.1.base g.1.next_seqnum := by
  induction h with
  | init =>
    refine ⟨?_, ?_, ?_, ?_, Finset.empty_subset _⟩ <;> norm_num [A_init, SEQSPACE]
  | subm m _ ih =>
    obtain ⟨hb0, hb1, hn0, hn1, hsub⟩ := ih
    rename_i g _
    unfold gA_output A_output
    by_cases hc : (g.1.next_seqnum - g.1.base + SEQSPACE) % SEQSPACE < WINDOWSIZE
    · rw [if_pos hc, if_pos hc]
      refine ⟨hb0, hb1, ?_, ?_, ?_⟩
      · show (0 : Int) ≤ (g.1.next_seqnum + 1) % SEQSPACE
        simp only [SEQSPACE]
        omega
      · show (g.1.next_seqnum + 1) % SEQSPACE < SEQSPACE
        simp only [SEQSPACE]
        omega
      · exact insert_subset_wrange g.1.base g.1.next_seqnum hb0 hb1 hn0 hn1 hc g.2 hsub
    · rw [if_neg hc, if_neg hc]
      exact ⟨hb0, hb1, hn0, hn1, hsub⟩
  | ack p _ ih =>
    obtain ⟨hb0, hb1, hn0, hn1, hsub⟩ := ih
    rename_i g _
    unfold gA_input
    by_cases hcor : IsCorrupted p = true
    · rw [if_pos hcor]
      exact ⟨hb0, hb1, hn0, hn1, hsub⟩
    · rw [if_neg hcor]
      by_cases hwin : (p.acknum - g.1.base + SEQSPACE) % SEQSPACE < WINDOWSIZE
      · rw [if_pos hwin]
        have hmb := markState_base g.1 p
        have hmn := markState_next g.1 p
        have h0m : 0 ≤ (markState g.1 p).base := by rw [hmb]; exact hb0
        have h1m : (markState g.1 p).base < SEQSPACE := by rw [hmb]; exact hb1
        have hsubm : g.2 ⊆ wrange (markState g.1 p).base (markState g.1 p).next_seqnum := by
          rw [hmb, hmn]
          exact hsub
        have heq :
            (let i := bufIdx6 p.acknum;
             let s1 :=
               if g.1.acked i then g.1
               else { g.1 with
                       acked := Function.update g.1.acked i true
                       resend_count := Function.update g.1.resend_count (idx7 p.acknum) 0 };
             gslide 7 (s1, g.2)) = gslide 7 (markState g.1 p, g.2) := rfl
        rw [heq]
        obtain ⟨hA, hB, hC, hD⟩ := gslide_sub 7 (markState g.1 p, g.2) h0m h1m hsubm
        refine ⟨hC, hD, ?_, ?_, hA⟩ <;> rw [hB]
        · show 0 ≤ (markState g.1 p).next_seqnum
          rw [hmn]
          exact hn0
        · show (markState g.1 p).next_seqnum < SEQSPACE
          rw [hmn]
          exact hn1
      · rw [if_neg hwin]
        exact ⟨hb0, hb1, hn0, hn1, hsub⟩
  | tmo _ he ih =>
    obtain ⟨hb0, hb1, hn0, hn1, hsub⟩ := ih
    rename_i g s2 sent _
    unfold A_timerinterrupt at he
    by_cases hc : MAX_RETRIES ≤ g.1.resend_count (idx7 g.1.base)
    · rw [if_pos hc] at he
      exact absurd he (by simp)
    · rw [if_neg hc] at he
      injection he with h1 h2
      subst h1
      exact ⟨hb0, hb1, hn0, hn1, hsub⟩

/-- C7 counterexample: the reachable ghost state `c7state` (submit frame
0; valid in-window ack for the never-sent seqnum 1, which marks slot 1;
valid ack 0, whose slide then also consumes the spurious slot-1 mark)
ends with base = 2, next_seqnum = 1 and an EMPTY in-flight set, while
`{base, ..., next_seqnum - 1} mod SEQSPACE` has WINDOWSIZE = 6 elements:
the in-flight set is not exactly the window range. -/
theorem A_inflight_window_counterexample :
    ReachG c7state ∧
    c7state.2 = ∅ ∧ c7state.1.base = 2 ∧ c7state.1.next_seqnum = 1 ∧
    ((wcount c7state.1.base c7state.1.next_seqnum : Int) = WINDOWSIZE) ∧
    c7state.2 ≠ wrange c7state.1.base c7state.1.next_seqnum :=
  ⟨ReachG.ack (mkAckPkt 0) (ReachG.ack (mkAckPkt 1) (ReachG.subm cmsg ReachG.init)),
   by decide, by decide, by decide, by decide, by decide⟩

/-- C7 amended: in every reachable sender state the set of in-flight
sequence numbers is CONTAINED IN (not always equal to)
`{base, ..., next_seqnum - 1} mod SEQSPACE`, and the window size measure
`(next_seqnum - base) mod SEQSPACE` never exceeds WINDOWSIZE. -/
theorem A_inflight_subset_window_amended {g : AState × Finset Int} (h : ReachG g) :
    g.2 ⊆ wrange g.1.base g.1.next_seqnum ∧
    ((wcount g.1.base g.1.next_seqnum : Int)) ≤ WINDOWSIZE := by
  refine ⟨(reachG_inv h).2.2.2.2, ?_⟩
  have := wcount_le g.1.base g.1.next_seqnum
  simp only [WINDOWSIZE]
  omega

/-- Witness for the amended C7 at a concrete reachable ghost state. -/
theorem A_inflight_subset_window_amended_witness :
    (gA_output (A_init, ∅) cmsg).2 ⊆
      wrange (gA_output (A_init, ∅) cmsg).1.base
        (gA_output (A_init, ∅) cmsg).1.next_seqnum ∧
    ((wcount (gA_output (A_init, ∅) cmsg).1.base
        (gA_output (A_init, ∅) cmsg).1.next_seqnum : Int)) ≤ WINDOWSIZE :=
  A_inflight_subset_window_amended (ReachG.subm cmsg ReachG.init)

/-! ### Claim C4: receiver marks stay inside the receive window -/

theorem B_input_corrupted (s : RState) (p : Pkt) (h : IsCorrupted p = true) :
    B_input s p = (s, [], []) := by
  unfold B_input
  rw [if_pos h]

theorem B_input_out_of_window (s : RState) (p : Pkt) (hcor : IsCorrupted p = false)
    (hwin : ¬ (p.seqnum - s.expected_seqnum + SEQSPACE) % SEQSPACE < WINDOWSIZE) :
    B_input s p = (s, [], []) := by
  unfold B_input
  rw [hcor]
  simp only [Bool.false_eq_true, if_false]
  rw [if_neg hwin]

theorem B_input_in_window (s : RState) (p : Pkt) (hcor : IsCorrupted p = false)
    (hwin : (p.seqnum - s.expected_seqnum + SEQSPACE) % SEQSPACE < WINDOWSIZE) :
    B_input s p = ((deliverLoop 7 (markR s p) []).1, (deliverLoop 7 (markR s p) []).2,
      [mkBAck s.B_nextseqnum p.seqnum]) := by
  unfold B_input markR
  rw [hcor]
  simp only [Bool.false_eq_true, if_false]
  rw [if_pos hwin]

theorem markR_expected (s : RState) (p : Pkt) :
    (markR s p).expected_seqnum = s.expected_seqnum := by
  unfold markR
  by_cases h : s.received (bufIdx6 p.seqnum) = true <;> simp [h]

theorem invB_init : InvB B_init := by
  refine ⟨by norm_num [B_init], by norm_num [B_init, SEQSPACE], ?_⟩
  intro i hi
  exact absurd hi (by simp [B_init])

theorem deliverLoop_invB (fuel : Nat) :
    ∀ (s : RState) (acc : List (Fin 20 → Int)),
      InvB s → InvB (deliverLoop fuel s acc).1 := by
  induction fuel with
  | zero => intro s acc h; exact h
  | succ fuel ih =>
    intro s acc h
    obtain ⟨he0, he1, hmk⟩ := h
    by_cases hflag : s.received (bufIdx6 s.expected_seqnum) = true
    · have hstep : deliverLoop (fuel + 1) s acc =
          deliverLoop fuel
            { s with
                received := Function.update s.received (bufIdx6 s.expected_seqnum) false
                expected_seqnum := (s.expected_seqnum + 1) % SEQSPACE }
            (acc ++ [(s.receiver_buffer (bufIdx6 s.expected_seqnum)).payload]) := by
        show (if s.received (bufIdx6 s.expected_seqnum) then _ else _) = _
        rw [if_pos hflag]
      rw [hstep]
      apply ih
      refine ⟨?_, ?_, ?_⟩
      · show (0 : Int) ≤ (s.expected_seqnum + 1) % SEQSPACE
        simp only [SEQSPACE]
        omega
      · show (s.expected_seqnum + 1) % SEQSPACE < SEQSPACE
        simp only [SEQSPACE]
        omega
      · intro i hi
        by_cases hie : i = bufIdx6 s.expected_seqnum
        · exfalso
          rw [show (({ s with
              received := Function.update s.received (bufIdx6 s.expected_seqnum) false,
              expected_seqnum := (s.expected_seqnum + 1) % SEQSPACE } : RState).received i) =
              Function.update s.received (bufIdx6 s.expected_seqnum) false i from rfl,
            hie, Function.update_same] at hi
          exact absurd hi (by simp)
        · have hi2 : s.received i = true := by
            rw [show (({ s with
                received := Function.update s.received (bufIdx6 s.expected_seqnum) false,
                expected_seqnum := (s.expected_seqnum + 1) % SEQSPACE } : RState).received i) =
                Function.update s.received (bufIdx6 s.expected_seqnum) false i from rfl,
              Function.update_noteq hie] at hi
            exact hi
          obtain ⟨hq0, hq1, hqs, hqw⟩ := hmk i hi2
          refine ⟨hq0, hq1, hqs, ?_⟩
          have hqe : (s.receiver_buffer i).seqnum ≠ s.expected_seqnum := by
            intro hqq
            apply hie
            rw [← hqs, hqq]
          show ((s.receiver_buffer i).seqnum - (s.expected_seqnum + 1) % SEQSPACE +
            SEQSPACE) % SEQSPACE < WINDOWSIZE
          simp only [SEQSPACE, WINDOWSIZE] at hqw he0 he1 hq0 hq1 ⊢
          omega
    · have hstep : deliverLoop (fuel + 1) s acc = (s, acc) := by
        show (if s.received (bufIdx6 s.expected_seqnum) then _ else _) = _
        rw [if_neg hflag]
      rw [hstep]
      exact ⟨he0, he1, hmk⟩

theorem markR_invB (s : RState) (p : Pkt) (hwf : 0 ≤ p.seqnum ∧ p.seqnum < SEQSPACE)
    (hwin : (p.seqnum - s.expected_seqnum + SEQSPACE) % SEQSPACE < WINDOWSIZE)
    (h : InvB s) : InvB (markR s p) := by
  obtain ⟨he0, he1, hmk⟩ := h
  by_cases hd : s.received (bufIdx6 p.seqnum) = true
  · have hm : markR s p = { s with B_nextseqnum := (s.B_nextseqnum + 1) % 2 } := by
      unfold markR
      rw [if_pos hd]
    rw [hm]
    exact ⟨he0, he1, fun i hi => hmk i hi⟩
  · have hm : markR s p =
        { s with
            B_nextseqnum := (s.B_nextseqnum + 1) % 2
            receiver_buffer := Function.update s.receiver_buffer (bufIdx6 p.seqnum) p
            received := Function.update s.received (bufIdx6 p.seqnum) true
            packets_received := s.packets_received + 1 } := by
      unfold markR
      rw [if_neg hd]
    rw [hm]
    refine ⟨he0, he1, ?_⟩
    intro i hi
    dsimp only at hi ⊢
    by_cases hie : i = bufIdx6 p.seqnum
    · subst hie
      rw [Function.update_same]
      exact ⟨hwf.1, hwf.2, rfl, hwin⟩
    · rw [Function.update_noteq hie] at hi
      rw [Function.update_noteq hie]
      exact hmk i hi

theorem B_input_invB (s : RState) (p : Pkt)
    (hwf : 0 ≤ p.seqnum ∧ p.seqnum < SEQSPACE) (h : InvB s) :
    InvB (B_input s p).1 := by
  by_cases hcor : IsCorrupted p = true
  · rw [B_input_corrupted s p hcor]
    exact h
  · have hcor2 : IsCorrupted p = false := by
      cases hcc : IsCorrupted p <;> simp_all
    by_cases hwin : (p.seqnum - s.expected_seqnum + SEQSPACE) % SEQSPACE < WINDOWSIZE
    · rw [B_input_in_window s p hcor2 hwin]
      exact deliverLoop_invB 7 (markR s p) [] (markR_invB s p hwf hwin h)
    · rw [B_input_out_of_window s p hcor2 hwin]
      exact h

theorem runBpkts_invB (pkts : List Pkt) :
    ∀ s : RState, InvB s → (∀ p ∈ pkts, 0 ≤ p.seqnum ∧ p.seqnum < SEQSPACE) →
      InvB (runBpkts s pkts) := by
  induction pkts with
  | nil => intro s h _; exact h
  | cons p rest ih =>
    intro s h hwf
    show InvB (runBpkts (B_input s p).1 rest)
    exact ih (B_input s p).1 (B_input_invB s p (hwf p (by simp)) h)
      (fun q hq => hwf q (by simp [hq]))

/-- C4: after any sequence of data-model frames (sequence numbers in
`[0, SEQSPACE)`) processed by the receiver from `B_init`, every buffer
slot whose received mark is set holds a frame whose sequence number lies
in the receive window `[expected, expected + WINDOWSIZE) mod SEQSPACE`:
the received set never records a sequence number outside the window. -/
theorem B_received_in_window_invariant (pkts : List Pkt)
    (hwf : ∀ p ∈ pkts, 0 ≤ p.seqnum ∧ p.seqnum < SEQSPACE) :
    ∀ i : Fin 6, (runBpkts B_init pkts).received i = true →
      (((runBpkts B_init pkts).receiver_buffer i).seqnum -
        (runBpkts B_init pkts).expected_seqnum + SEQSPACE) % SEQSPACE < WINDOWSIZE := by
  intro i hi
  exact ((runBpkts_invB pkts B_init invB_init hwf).2.2 i hi).2.2.2

/-- Witness for C4: frame 1 arrives out of order and is buffered at slot
1; its sequence number 1 is inside the window `[0, 6)`. -/
theorem B_received_in_window_invariant_witness :
    (runBpkts B_init [mkFrame pay7 1]).received 1 = true ∧
    (((runBpkts B_init [mkFrame pay7 1]).receiver_buffer 1).seqnum -
      (runBpkts B_init [mkFrame pay7 1]).expected_seqnum + SEQSPACE) % SEQSPACE <
      WINDOWSIZE :=
  ⟨by decide,
   B_received_in_window_invariant [mkFrame pay7 1]
     (fun p hp => by
       rw [List.mem_singleton] at hp
       subst hp
       exact ⟨by decide, by decide⟩) 1 (by decide)⟩

/-! ### Claim C1: in-order delivery -/

/-- C1 counterexample: submit seven messages (frames 0..6); frames 0..5
arrive in order and are delivered, then a second (retransmitted) copy of
frame 0 arrives — inside the receive window, since after delivering 0..5
the window is `[6, 4]` and covers sequence number 0.  Slot aliasing
(SEQSPACE = 7 < 2·WINDOWSIZE) makes the receiver deliver frame 0's
payload again in place of frame 6: the delivered sequence has a duplicate
and does not match the submitted sequence. -/
theorem B_delivery_duplicate_counterexample :
    allInWin pay7 B_init cexArr = true ∧
    (runArr pay7 B_init cexArr []).2 = ((List.range 6).map pay7) ++ [pay7 0] ∧
    (runArr pay7 B_init cexArr []).2 ≠ (List.range 7).map pay7 ∧
    ¬ (runArr pay7 B_init cexArr []).2.Nodup :=
  ⟨by decide, by decide, by decide, by decide⟩

theorem mkFrame_seqnum (pay : Nat → Fin 20 → Int) (k : Nat) :
    (mkFrame pay k).seqnum = (k : Int) := rfl

theorem mkFrame_payload (pay : Nat → Fin 20 → Int) (k : Nat) :
    (mkFrame pay k).payload = pay k := rfl

theorem mkFrame_uncorrupted (pay : Nat → Fin 20 → Int) (k : Nat) :
    IsCorrupted (mkFrame pay k) = false := by
  simp only [IsCorrupted, mkFrame, mkDataPkt, Bool.not_eq_false']
  exact beq_iff_eq.mpr rfl

theorem bufIdx6_coe (k : Nat) : (bufIdx6 (k : Int)).val = k % 6 := by
  show ((k : Int) % 6).toNat % 6 = k % 6
  omega

theorem bufIdx6_coe_eq {k a : Nat} (h : bufIdx6 (k : Int) = bufIdx6 (a : Int)) :
    k % 6 = a % 6 := by
  have := congrArg Fin.val h
  rwa [bufIdx6_coe, bufIdx6_coe] at this

theorem bufIdx6_coe_ne {k a : Nat} (h : k % 6 ≠ a % 6) :
    bufIdx6 (k : Int) ≠ bufIdx6 (a : Int) :=
  fun hc => h (bufIdx6_coe_eq hc)

theorem deliverLoop_run (pay : Nat → Fin 20 → Int) (n : Nat) (hn : n ≤ 7) :
    ∀ (fuel d : Nat) (processed : List Nat) (st : RState)
      (acc : List (Fin 20 → Int)),
      n - d ≤ fuel → d ≤ n → InvCore pay n processed st d →
      ∃ d2 : Nat, d ≤ d2 ∧ d2 ≤ n ∧
        (deliverLoop fuel st acc).2 = acc ++ ((List.range' d (d2 - d)).map pay) ∧
        InvCore pay n processed (deliverLoop fuel st acc).1 d2 ∧
        (deliverLoop fuel st acc).1.received (bufIdx6 ((d2 : Int) % SEQSPACE)) = false := by
  intro fuel
  induction fuel with
  | zero =>
    intro d processed st acc hfuel hdn hcore
    obtain ⟨hexp, hpn, hbel, hmk, hmkInv⟩ := hcore
    have hflag : st.received (bufIdx6 ((d : Int) % SEQSPACE)) = false := by
      by_contra hne
      have htrue : st.received (bufIdx6 ((d : Int) % SEQSPACE)) = true := by
        cases hb : st.received (bufIdx6 ((d : Int) % SEQSPACE)) <;> simp_all
      obtain ⟨k, _, hkd, hkn, _, _, _⟩ := hmkInv _ htrue
      omega
    exact ⟨d, le_refl d, hdn, by simp [deliverLoop], ⟨hexp, hpn, hbel, hmk, hmkInv⟩, hflag⟩
  | succ fuel ih =>
    intro d processed st acc hfuel hdn hcore
    obtain ⟨hexp, hpn, hbel, hmk, hmkInv⟩ := hcore
    by_cases hflag0 : st.received (bufIdx6 st.expected_seqnum) = true
    · have hdlt : d < n := by
        by_contra hge
        have hdn2 : d = n := by omega
        rw [hexp] at hflag0
        obtain ⟨k, _, hkd, hkn, _, _, _⟩ := hmkInv _ hflag0
        omega
      have hexp2 : st.expected_seqnum = ((d : Nat) : Int) := by
        rw [hexp]
        simp only [SEQSPACE]
        omega
      have hflag1 : st.received (bufIdx6 ((d : Nat) : Int)) = true := by
        rw [← hexp2]
        exact hflag0
      obtain ⟨k, hkp, hkd, hkn, hk6, hki, hkb⟩ := hmkInv _ hflag1
      have hkd2 : k = d := by
        have hv := bufIdx6_coe_eq hki
        omega
      subst hkd2
      have hpay : (st.receiver_buffer (bufIdx6 ((k : Nat) : Int))).payload = pay k := by
        rw [hkb]
        rfl
      have hstep : deliverLoop (fuel + 1) st acc =
          deliverLoop fuel
            { st with
                received := Function.update st.received (bufIdx6 ((k : Nat) : Int)) false
                expected_seqnum := (((k : Nat) : Int) + 1) % SEQSPACE }
            (acc ++ [pay k]) := by
        show (if st.received (bufIdx6 st.expected_seqnum) then
            deliverLoop fuel
              { st with
                  received := Function.update st.received (bufIdx6 st.expected_seqnum) false
                  expected_seqnum := (st.expected_seqnum + 1) % SEQSPACE }
              (acc ++ [(st.receiver_buffer (bufIdx6 st.expected_seqnum)).payload])
          else (st, acc)) = _
        rw [hexp2, if_pos hflag1, hpay]
      rw [hstep]
      have hcore2 : InvCore pay n processed
          { st with
              received := Function.update st.received (bufIdx6 ((k : Nat) : Int)) false
              expected_seqnum := (((k : Nat) : Int) + 1) % SEQSPACE }
          (k + 1) := by
        refine ⟨?_, hpn, ?_, ?_, ?_⟩
        · show (((k : Nat) : Int) + 1) % SEQSPACE = (((k + 1 : Nat)) : Int) % SEQSPACE
          push_cast
          rfl
        · intro k2 hk2
          rcases Nat.lt_or_ge k2 k with h | h
          · exact hbel k2 h
          · have hk2e : k2 = k := by omega
            rw [hk2e]
            exact hkp
        · intro k2 hk2p hk2d
          obtain ⟨hk26, hk2r, hk2b⟩ := hmk k2 hk2p (by omega)
          have hslot : bufIdx6 ((k2 : Nat) : Int) ≠ bufIdx6 ((k : Nat) : Int) :=
            bufIdx6_coe_ne (by omega)
          refine ⟨by omega, ?_, hk2b⟩
          show Function.update st.received (bufIdx6 ((k : Nat) : Int)) false
            (bufIdx6 ((k2 : Nat) : Int)) = true
          rw [Function.update_noteq hslot]
          exact hk2r
        · intro i hi
          by_cases hie : i = bufIdx6 ((k : Nat) : Int)
          · exfalso
            rw [show ({ st with
                received := Function.update st.received (bufIdx6 ((k : Nat) : Int)) false
                expected_seqnum := (((k : Nat) : Int) + 1) % SEQSPACE } : RState).received i =
              Function.update st.received (bufIdx6 ((k : Nat) : Int)) false i from rfl,
              hie, Function.update_same] at hi
            exact absurd hi (by simp)
          · have hi2 : st.received i = true := by
              rw [show ({ st with
                  received := Function.update st.received (bufIdx6 ((k : Nat) : Int)) false
                  expected_seqnum := (((k : Nat) : Int) + 1) % SEQSPACE } : RState).received i =
                Function.update st.received (bufIdx6 ((k : Nat) : Int)) false i from rfl,
                Function.update_noteq hie] at hi
              exact hi
            obtain ⟨k2, hk2p, hk2d, hk2n, hk26, hk2i, hk2b⟩ := hmkInv i hi2
            have hk2ne : k2 ≠ k := fun hc => hie (by rw [← hk2i, hc])
            exact ⟨k2, hk2p, by omega, hk2n, by omega, hk2i, hk2b⟩
      obtain ⟨d2, hd2a, hd2b, hacc, hcoreF, hflagF⟩ :=
        ih (k + 1) processed _ (acc ++ [pay k]) (by omega) (by omega) hcore2
      refine ⟨d2, by omega, hd2b, ?_, hcoreF, hflagF⟩
      rw [hacc, List.append_assoc]
      congr 1
      have hr : List.range' k (d2 - k) = k :: List.range' (k + 1) (d2 - k - 1) := by
        have h1 : d2 - k = (d2 - k - 1) + 1 := by omega
        conv_lhs => rw [h1]
        rw [List.range'_succ]
      have h2 : d2 - (k + 1) = d2 - k - 1 := by omega
      rw [h2, hr]
      simp
    · have hstep : deliverLoop (fuel + 1) st acc = (st, acc) := by
        show (if st.received (bufIdx6 st.expected_seqnum) then
            deliverLoop fuel
              { st with
                  received := Function.update st.received (bufIdx6 st.expected_seqnum) false
                  expected_seqnum := (st.expected_seqnum + 1) % SEQSPACE }
              (acc ++ [(st.receiver_buffer (bufIdx6 st.expected_seqnum)).payload])
          else (st, acc)) = _
        rw [if_neg hflag0]
      rw [hstep]
      refine ⟨d, le_refl d, hdn, by simp, ⟨hexp, hpn, hbel, hmk, hmkInv⟩, ?_⟩
      rw [← hexp]
      cases hb : st.received (bufIdx6 st.expected_seqnum) <;> simp_all

theorem B_step_invR (pay : Nat → Fin 20 → Int) (n : Nat) (hn : n ≤ 7)
    (processed : List Nat) (st : RState) (dl : List (Fin 20 → Int)) (a : Nat)
    (ha : a < n) (hnp : a ∉ processed)
    (hinv : InvR pay n processed st dl)
    (hwin : ((mkFrame pay a).seqnum - st.expected_seqnum + SEQSPACE) % SEQSPACE <
      WINDOWSIZE) :
    InvR pay n (processed ++ [a]) (B_input st (mkFrame pay a)).1
      (dl ++ (B_input st (mkFrame pay a)).2.1) := by
  obtain ⟨d, hdn, hcore, hdl, hflagE⟩ := hinv
  obtain ⟨hexp, hpn, hbel, hmk, hmkInv⟩ := hcore
  have hcor := mkFrame_uncorrupted pay a
  rw [B_input_in_window st (mkFrame pay a) hcor hwin]
  dsimp only
  have hda : d ≤ a := by
    by_contra h
    exact hnp (hbel a (by omega))
  have hd6 : d ≤ 6 := by omega
  have ha6 : a < d + 6 := by
    rw [mkFrame_seqnum, hexp] at hwin
    simp only [SEQSPACE, WINDOWSIZE] at hwin
    omega
  have hfresh : st.received (bufIdx6 ((a : Nat) : Int)) = false := by
    by_contra hne
    have htrue : st.received (bufIdx6 ((a : Nat) : Int)) = true := by
      cases hb : st.received (bufIdx6 ((a : Nat) : Int)) <;> simp_all
    obtain ⟨k, hkp, hkd, hkn, hk6, hki, hkb⟩ := hmkInv _ htrue
    have hke := bufIdx6_coe_eq hki
    have hka : k = a := by omega
    exact hnp (hka ▸ hkp)
  have hfresh2 : ({ st with B_nextseqnum := (st.B_nextseqnum + 1) % 2 } : RState).received
      (bufIdx6 (mkFrame pay a).seqnum) = false := hfresh
  have hm : markR st (mkFrame pay a) =
      { st with
          B_nextseqnum := (st.B_nextseqnum + 1) % 2
          receiver_buffer :=
            Function.update st.receiver_buffer (bufIdx6 ((a : Nat) : Int)) (mkFrame pay a)
          received := Function.update st.received (bufIdx6 ((a : Nat) : Int)) true
          packets_received := st.packets_received + 1 } := by
    unfold markR
    rw [if_neg (ne_true_of_eq_false hfresh2)]
    rfl
  have hcore2 : InvCore pay n (processed ++ [a]) (markR st (mkFrame pay a)) d := by
    rw [hm]
    refine ⟨hexp, ?_, ?_, ?_, ?_⟩
    · intro k hk
      rcases List.mem_append.mp hk with h | h
      · exact hpn k h
      · rw [List.mem_singleton] at h
        omega
    · intro k hk
      exact List.mem_append.mpr (Or.inl (hbel k hk))
    · intro k hkmem hkd
      dsimp only
      rcases List.mem_append.mp hkmem with hkl | hkr
      · obtain ⟨hk6, hkrcv, hkbuf⟩ := hmk k hkl hkd
        have hkna : k ≠ a := fun hc => hnp (hc ▸ hkl)
        have hslot : bufIdx6 ((k : Nat) : Int) ≠ bufIdx6 ((a : Nat) : Int) :=
          bufIdx6_coe_ne (by omega)
        refine ⟨hk6, ?_, ?_⟩
        · rw [Function.update_noteq hslot]
          exact hkrcv
        · rw [Function.update_noteq hslot]
          exact hkbuf
      · rw [List.mem_singleton] at hkr
        subst hkr
        refine ⟨ha6, ?_, ?_⟩
        · rw [Function.update_same]
        · rw [Function.update_same]
    · intro i hi
      dsimp only at hi ⊢
      by_cases hie : i = bufIdx6 ((a : Nat) : Int)
      · subst hie
        refine ⟨a, List.mem_append.mpr (Or.inr (by simp)), hda, ha, ha6, rfl, ?_⟩
        rw [Function.update_same]
      · rw [Function.update_noteq hie] at hi
        obtain ⟨k, hkp2, hkd2, hkn2, hk62, hki2, hkb2⟩ := hmkInv i hi
        refine ⟨k, List.mem_append.mpr (Or.inl hkp2), hkd2, hkn2, hk62, hki2, ?_⟩
        rw [Function.update_noteq hie]
        exact hkb2
  obtain ⟨d2, hd2a, hd2b, hacc, hcoreF, hflagF⟩ :=
    deliverLoop_run pay n hn 7 d (processed ++ [a]) (markR st (mkFrame pay a)) []
      (by omega) hdn hcore2
  refine ⟨d2, hd2b, hcoreF, ?_, hflagF⟩
  rw [hacc, hdl, List.nil_append, ← List.map_append]
  congr 1
  rw [List.range_eq_range', List.range_eq_range']
  have happ := List.range'_append 0 d (d2 - d) 1
  norm_num at happ
  rw [happ]
  congr 1
  omega

theorem runArr_invR (pay : Nat → Fin 20 → Int) (n : Nat) (hn : n ≤ 7) :
    ∀ (arr processed : List Nat) (st : RState) (dl : List (Fin 20 → Int)),
      InvR pay n processed st dl →
      (processed ++ arr).Nodup →
      (∀ a ∈ arr, a < n) →
      allInWin pay st arr = true →
      InvR pay n (processed ++ arr) (runArr pay st arr dl).1 (runArr pay st arr dl).2 := by
  intro arr
  induction arr with
  | nil =>
    intro processed st dl hinv _ _ _
    rw [List.append_nil]
    exact hinv
  | cons a rest ih =>
    intro processed st dl hinv hnd hb hwin
    have hwin1 : ((mkFrame pay a).seqnum - st.expected_seqnum + SEQSPACE) % SEQSPACE <
        WINDOWSIZE ∧ allInWin pay (B_input st (mkFrame pay a)).1 rest = true := by
      simp only [allInWin, Bool.and_eq_true, decide_eq_true_eq] at hwin
      exact hwin
    have hnp : a ∉ processed := by
      rw [List.nodup_append] at hnd
      intro hc
      exact hnd.2.2 hc (by simp)
    have hstep := B_step_invR pay n hn processed st dl a (hb a (by simp)) hnp hinv hwin1.1
    have hnd2 : ((processed ++ [a]) ++ rest).Nodup := by
      rw [List.append_assoc, List.singleton_append]
      exact hnd
    have hres := ih (processed ++ [a]) (B_input st (mkFrame pay a)).1
      (dl ++ (B_input st (mkFrame pay a)).2.1) hstep hnd2
      (fun x hx => hb x (by simp [hx])) hwin1.2
    rw [List.append_assoc, List.singleton_append] at hres
    exact hres

/-- C1 amended: when at most SEQSPACE messages are submitted (so sequence
numbers do not alias) and each frame arrives AT MOST ONCE, with every
arrival inside the receive window, the sequence of payloads delivered to
the application is a prefix of the submitted sequence — in submission
order, no gaps, no duplicates — and if every frame arrives the delivered
sequence equals the submitted sequence.  (Without these restrictions the
claim fails: see the duplicate-arrival counterexample.) -/
theorem B_in_order_delivery_amended (pay : Nat → Fin 20 → Int) (n : Nat)
    (arr : List Nat) (hn : n ≤ 7) (hnd : arr.Nodup) (hbound : ∀ a ∈ arr, a < n)
    (hwin : allInWin pay B_init arr = true) :
    ∃ d : Nat, d ≤ n ∧
      (runArr pay B_init arr []).2 = (List.range d).map pay ∧
      ((∀ k, k < n → k ∈ arr) →
        (runArr pay B_init arr []).2 = (List.range n).map pay) := by
  have hinit : InvR pay n [] B_init [] := by
    refine ⟨0, by omega, ⟨rfl, by simp, ?_, by simp, ?_⟩, rfl, rfl⟩
    · intro k hk
      exact absurd hk (by omega)
    · intro i hi
      exact absurd hi (by simp [B_init])
  have hrun := runArr_invR pay n hn arr [] B_init [] hinit (by simpa using hnd)
    hbound hwin
  rw [List.nil_append] at hrun
  obtain ⟨d, hdn, hcore, hdl, hflag⟩ := hrun
  refine ⟨d, hdn, hdl, ?_⟩
  intro hall
  rcases Nat.lt_or_ge d n with hdlt | hdge
  · exfalso
    obtain ⟨hexp, hpn, hbel, hmk, hmkInv⟩ := hcore
    obtain ⟨hlt6, hrecv, _⟩ := hmk d (hall d hdlt) (le_refl d)
    have hc : ((d : Nat) : Int) % SEQSPACE = ((d : Nat) : Int) := by
      simp only [SEQSPACE]
      omega
    rw [hc] at hflag
    rw [hrecv] at hflag
    exact absurd hflag (by simp)
  · have hde : d = n := by omega
    rw [← hde]
    exact hdl

/-- Witness for the amended C1: three messages, arriving in the order
1, 0, 2 — all in-window; delivery is 0, 1, 2 in submission order. -/
theorem B_in_order_delivery_amended_witness :
    ∃ d : Nat, d ≤ 3 ∧
      (runArr pay7 B_init [1, 0, 2] []).2 = (List.range d).map pay7 ∧
      ((∀ k, k < 3 → k ∈ [1, 0, 2]) →
        (runArr pay7 B_init [1, 0, 2] []).2 = (List.range 3).map pay7) :=
  B_in_order_delivery_amended pay7 3 [1, 0, 2] (by omega) (by decide)
    (by decide) (by decide)

end SR
